import Mathlib

/-!
Verification of the Nifty50 company-news dashboard backend.

The repository has three entry points (a Flask app `app.py`, a raw HTTP
handler `csv_server.py`, and a static build script `build.py`) that each
re-implement a filename-to-date parser, a news classifier, a link
extractor and a row aggregator.  This file embeds those functions over
Python strings modelled as lists of characters (`PyStr`), faithful to the
Python source, and proves the specification's claims about them.

Modelling conventions:
- A Python `str` is a `List Char` (`PyStr`); string literals enter through
  `pystr`.
- Python `None` and pandas `NaN` cell values are modelled as `Option.none`;
  a missing CSV column is likewise `none` (the code substitutes an empty
  string for it before use).
- Whitespace for `str.strip` and the regex class backslash-s is modelled
  by the six ASCII whitespace characters (all inputs in the repository's
  data path are ASCII).
- `str.lower` is per-character ASCII lowercasing (`Char.toLower`).
-/

/-- A Python string, modelled as its list of characters. -/
abbrev PyStr := List Char

/-- Embed a Lean string literal as a `PyStr`. -/
def pystr (s : String) : PyStr := s.toList

/-- ASCII whitespace, as recognised by Python `str.strip` on ASCII data:
space, tab, newline, carriage return, vertical tab, form feed. -/
def pyIsSpace (c : Char) : Bool :=
  c = ' ' || c = '\t' || c = '\n' || c = '\r' || c = '\x0b' || c = '\x0c'

/-- Python `str.strip()`: drop leading and trailing whitespace. -/
def pyStrip (s : PyStr) : PyStr :=
  ((s.dropWhile pyIsSpace).reverse.dropWhile pyIsSpace).reverse

/-- Python `str.lower()` on ASCII data: lowercase each character. -/
def pyLower (s : PyStr) : PyStr := s.map Char.toLower

/-- Python `str.startswith(pat)`. -/
def pyStartswith : PyStr → PyStr → Bool
  | [], _ => true
  | _ :: _, [] => false
  | p :: ps, c :: cs => p = c && pyStartswith ps cs

/-- Python `pat in s` (substring containment). -/
def pyIn (pat : PyStr) : PyStr → Bool
  | [] => pyStartswith pat []
  | c :: rest => pyStartswith pat (c :: rest) || pyIn pat rest

/-- Python string `<=` (lexicographic by code point). -/
def pyStrLe : PyStr → PyStr → Bool
  | [], _ => true
  | _ :: _, [] => false
  | a :: s, b :: t => if a = b then pyStrLe s t else decide (a < b)

/-- Python `s.split(sep)` for a one-character separator `sep`.
`pySplit sep []` is `[[]]`, matching Python where splitting an empty
string on a non-empty separator gives one empty piece. -/
def pySplit (sep : Char) : PyStr → List PyStr
  | [] => [[]]
  | c :: rest =>
    if c = sep then [] :: pySplit sep rest
    else
      match pySplit sep rest with
      | h :: t => (c :: h) :: t
      | [] => [[c]]

/-- Python `s.zfill(n)`: left-pad with zeros to width `n`, keeping a
leading sign character in front of the padding. -/
def pyZfill (n : Nat) (s : PyStr) : PyStr :=
  if n ≤ s.length then s
  else
    match s with
    | [] => List.replicate n '0'
    | c :: rest =>
      if c = '+' || c = '-' then c :: (List.replicate (n - s.length) '0' ++ rest)
      else List.replicate (n - s.length) '0' ++ s

/-- Worker for Python `s.replace(pat, '')` with a non-empty pattern:
scan left to right, removing each non-overlapping occurrence of `pat`.
The fuel argument makes the recursion structural; `fuel ≥ s.length`
suffices because every step consumes at least one character of `s`. -/
def pyRemoveAux (pat : PyStr) : Nat → PyStr → PyStr
  | 0, s => s
  | _ + 1, [] => []
  | fuel + 1, c :: rest =>
    if pyStartswith pat (c :: rest) then
      pyRemoveAux pat fuel (List.drop (pat.length - 1) rest)
    else c :: pyRemoveAux pat fuel rest

/-- Python `s.replace(pat, '')` for a non-empty `pat`: remove every
occurrence of `pat` from `s`, left to right, non-overlapping. -/
def pyRemoveAll (pat s : PyStr) : PyStr := pyRemoveAux pat s.length s

/-- `parse_date_from_filename` (identical in app.py, build.py and
csv_server.py): remove every occurrence of ".csv", split on dots, and if
exactly three parts remain, read them as day.month.year and return the
ISO string year-month-day with month and day zero-filled to width 2.
Anything else yields `none`; no calendar validation is performed. -/
def parse_date_from_filename (filename : PyStr) : Option PyStr :=
  let date_part := pyRemoveAll (pystr (".csv")) filename
  match pySplit '.' date_part with
  | [day, month, year] =>
    some (year ++ ('-' :: pyZfill 2 month) ++ ('-' :: pyZfill 2 day))
  | _ => none

/-! ## News classifier -/

/-- Classification outcome of the news heuristic. -/
inductive NewsCategory where
  | no_news
  | has_news
deriving DecidableEq

/-- Does `r` begin with two digits, a dot, two digits, a dot and four
digits — the anchored tail of the regex, backslash-d{2}\.\.\. etc.?
Digits are ASCII `0`-`9`. -/
def matchDateDigits : PyStr → Bool
  | d1 :: d2 :: p1 :: d3 :: d4 :: p2 :: d5 :: d6 :: d7 :: d8 :: _ =>
    d1.isDigit && d2.isDigit && p1 = '.' && d3.isDigit && d4.isDigit &&
      p2 = '.' && d5.isDigit && d6.isDigit && d7.isDigit && d8.isDigit
  | _ => false

/-- Does `r` begin with " on " followed by a dd.dd.dddd date? -/
def matchOnDate (r : PyStr) : Bool :=
  pyStartswith (pystr (" on ")) r && matchDateDigits (r.drop 4)

/-- Does `r` begin with one or more non-newline characters (the regex
".+", which does not cross newlines) followed by " on " and a
dd.dd.dddd date? -/
def matchMidTail : PyStr → Bool
  | [] => false
  | c :: rest => c ≠ '\n' && (matchOnDate rest || matchMidTail rest)

/-- `re.search` of the pattern
"no significant corporate developments for .+ on dd\.dd\.dddd" in `s`:
true when some position of `s` starts the literal prefix followed by a
non-empty non-newline run, " on ", and a two-two-four digit date. -/
def noNewsRegexSearch : PyStr → Bool
  | [] => false
  | s@(_ :: rest) =>
    (pyStartswith (pystr ("no significant corporate developments for ")) s &&
      matchMidTail (s.drop 42)) || noNewsRegexSearch rest

/-- The 13 "no news" phrases of `categorize_company_news` in app.py and
build.py, in source order. -/
def no_news_patterns : List PyStr :=
  [pystr ("no significant corporate developments for"),
   pystr ("no significant corporate developments"),
   pystr ("no significant developments"),
   pystr ("no significant news"),
   pystr ("no significant"),
   pystr ("no news found"),
   pystr ("no news"),
   pystr ("no updates"),
   pystr ("no recent news"),
   pystr ("no major news"),
   pystr ("nothing significant"),
   pystr ("no developments"),
   pystr ("no announcements")]

/-- `categorize_company_news` (identical in app.py and build.py).
`none` models an absent value (Python `None` or pandas `NaN`); an empty
string is falsy in Python, so it also short-circuits to no-news.
Otherwise the text is stripped and lowercased, then: regex hit, length
under 50, or any listed phrase present, each mean no news. -/
def categorize_company_news : Option PyStr → NewsCategory
  | none => .no_news
  | some t =>
    if t = [] then .no_news
    else
      let text_str := pyLower (pyStrip t)
      if noNewsRegexSearch text_str then .no_news
      else if text_str.length < 50 then .no_news
      else if no_news_patterns.any (fun p => pyIn p text_str) then .no_news
      else .has_news

/-- The 12 phrases enumerated by the specification's decision list. -/
def spec_no_news_patterns : List PyStr :=
  [pystr ("no significant corporate developments"),
   pystr ("no significant developments"),
   pystr ("no significant news"),
   pystr ("no significant"),
   pystr ("no news found"),
   pystr ("no news"),
   pystr ("no updates"),
   pystr ("no recent news"),
   pystr ("no major news"),
   pystr ("nothing significant"),
   pystr ("no developments"),
   pystr ("no announcements")]

/-- Modelled from the spec: the five-rule ordered decision list of the
news classifier — (1) absent or empty text, (2) the case-insensitive
"no significant corporate developments for ... on dd.dd.dddd" regex,
(3) trimmed lowercased length under 50, (4) any of the enumerated
phrases contained case-insensitively, each give no-news; (5) otherwise
has-news. -/
def spec_classifier : Option PyStr → NewsCategory
  | none => .no_news
  | some t =>
    if t = [] then .no_news
    else
      let text_str := pyLower (pyStrip t)
      if noNewsRegexSearch text_str then .no_news
      else if text_str.length < 50 then .no_news
      else if spec_no_news_patterns.any (fun p => pyIn p text_str) then .no_news
      else .has_news

/-- The 9 "no news" phrases of `has_significant_news` in csv_server.py,
in source order. -/
def csv_no_news_patterns : List PyStr :=
  [pystr ("no significant corporate developments"),
   pystr ("no significant news"),
   pystr ("no news"),
   pystr ("no updates"),
   pystr ("no recent news"),
   pystr ("no major news"),
   pystr ("nothing significant"),
   pystr ("no developments"),
   pystr ("no announcements")]

/-- `has_significant_news` from csv_server.py: `false` (no news) when
the text is empty or its stripped form is shorter than 50 characters,
or when the lowercased (not stripped) text contains one of nine
phrases; `true` (has news) otherwise.  There is no regex rule. -/
def has_significant_news (text : PyStr) : Bool :=
  if text = [] || (pyStrip text).length < 50 then false
  else
    let text_lower := pyLower text
    if csv_no_news_patterns.any (fun p => pyIn p text_lower) then false
    else true

/-! ## Link extractors -/

/-- The URL-ish substrings whose presence `process_links` accepts. -/
def link_domains : List PyStr :=
  [pystr ("http"), pystr ("www."), pystr (".com"), pystr (".org"),
   pystr (".net"), pystr (".in")]

/-- The delimiters `process_links` probes, in source order. -/
def link_delimiters : List Char := [',', ';', '\n', '|', '\t']

/-- The body of the per-piece loop of the delimiter-split
`process_links` (app.py and build.py): trim, require length over 10,
prepend "https://" when the protocol is missing and the piece starts
with "www." or contains a dot without starting with "no ", and keep the
piece only if it contains one of the URL-ish substrings. -/
def clean_link (piece : PyStr) : Option PyStr :=
  let link := pyStrip piece
  if link ≠ [] ∧ link.length > 10 then
    let link :=
      if pyStartswith (pystr ("http://")) link || pyStartswith (pystr ("https://")) link then
        link
      else if pyStartswith (pystr ("www.")) link then pystr ("https://") ++ link
      else if '.' ∈ link ∧ ¬ (pyStartswith (pystr ("no ")) link = true) then
        pystr ("https://") ++ link
      else link
    if link_domains.any (fun d => pyIn d link) then some link else none
  else none

/-- `process_links` of app.py and build.py (the delimiter-split
variant).  `none` models Python `None` or `NaN`.  The field is trimmed;
an empty or "no links found..."-prefixed field gives no links;
otherwise the field is split on the first delimiter found among comma,
semicolon, newline, pipe, tab (or kept whole) and each piece is cleaned
by `clean_link`. -/
def process_links (links : Option PyStr) : List PyStr :=
  match links with
  | none => []
  | some s0 =>
    let s := pyStrip s0
    if s = [] then []
    else if pyStartswith (pystr ("no links found")) (pyLower s) then []
    else
      let pieces :=
        match link_delimiters.find? (fun d => decide (d ∈ s)) with
        | some d => (pySplit d s).map pyStrip
        | none => [s]
      pieces.filterMap clean_link

/-- Characters excluded by the URL regex body class
(whitespace, double quote, apostrophe, angle brackets, closing square
bracket, closing parenthesis). -/
def isUrlChar (c : Char) : Bool :=
  !(pyIsSpace c || c = '"' || c = Char.ofNat 39 || c = '<' || c = '>' ||
    c = ']' || c = ')')

/-- Try to match the regex "https?://[...]+" at the head of `s`:
on success return the matched URL and the rest of the string. -/
def tryMatchUrl (s : PyStr) : Option (PyStr × PyStr) :=
  if pyStartswith (pystr ("https://")) s then
    let body := (s.drop 8).takeWhile isUrlChar
    if body = [] then none
    else some (pystr ("https://") ++ body, (s.drop 8).drop body.length)
  else if pyStartswith (pystr ("http://")) s then
    let body := (s.drop 7).takeWhile isUrlChar
    if body = [] then none
    else some (pystr ("http://") ++ body, (s.drop 7).drop body.length)
  else none

/-- Worker for `re.findall` of the URL pattern: scan left to right,
emitting each leftmost non-overlapping match.  Structural on fuel;
`fuel ≥ s.length` suffices since every step consumes at least one
character. -/
def scanUrlsAux : Nat → PyStr → List PyStr
  | 0, _ => []
  | _ + 1, [] => []
  | fuel + 1, c :: rest =>
    match tryMatchUrl (c :: rest) with
    | some (url, after) => url :: scanUrlsAux fuel after
    | none => scanUrlsAux fuel rest

/-- `re.findall(url_pattern, s)`: all leftmost non-overlapping matches
of "https?://[...]+" in `s`. -/
def scanUrls (s : PyStr) : List PyStr := scanUrlsAux s.length s

/-- Trailing punctuation stripped from each regex match. -/
def isTrailPunct (c : Char) : Bool :=
  c = '.' || c = ',' || c = ';' || c = ')' || c = '\x7d' || c = ']'

/-- `re.sub` of trailing punctuation: drop the maximal trailing run of
`. , ; ) closing-brace ]` characters. -/
def stripTrailingPunct (u : PyStr) : PyStr :=
  (u.reverse.dropWhile isTrailPunct).reverse

/-- The dedup-and-filter loop of csv_server.py's `process_links`:
walk the matches keeping each stripped URL that is non-empty, unseen
and longer than 10 characters, remembering kept URLs in `seen`. -/
def csv_clean_urls (seen : List PyStr) : List PyStr → List PyStr
  | [] => []
  | u0 :: us =>
    let u := stripTrailingPunct u0
    if u ≠ [] ∧ ¬ u ∈ seen ∧ u.length > 10 then
      u :: csv_clean_urls (u :: seen) us
    else csv_clean_urls seen us

/-- `process_links` of csv_server.py (the regex-extraction variant).
An absent or empty field, or one whose lowercased — but not trimmed —
text starts with "no links found", gives no links; otherwise URLs are
regex-extracted, stripped of trailing punctuation, length-filtered and
deduplicated keeping first occurrences. -/
def csv_process_links (links : Option PyStr) : List PyStr :=
  match links with
  | none => []
  | some s =>
    if s = [] then []
    else if pyStartswith (pystr ("no links found")) (pyLower s) then []
    else csv_clean_urls [] (scanUrls s)

/-! ## Data model, sorting and aggregation -/

/-- One parsed CSV row.  `company_name` is the raw cell text; the text
and links cells are `none` when the column is absent or the value is
`NaN`/`None`. -/
structure Row where
  company_name : PyStr
  extracted_text : Option PyStr
  extracted_links : Option PyStr
deriving DecidableEq

/-- Python `str(x) if x else ''` on an optional cell. -/
def optStr (o : Option PyStr) : PyStr := o.getD []

/-- The per-company dictionary each entry point serializes into the two
report buckets. -/
structure CompanyData where
  name : PyStr
  text : PyStr
  links_raw : PyStr
  has_content : Bool
deriving DecidableEq

/-- The aggregate served for one date. -/
structure DailyReport where
  withNews : List CompanyData
  noNews : List CompanyData
  total_companies : Nat
  news_count : Nat
  no_news_count : Nat
deriving DecidableEq

/-- Insert `a` into `l` after every element `b` with `le b a`: the step
of a stable insertion sort, modelling Python's stable ascending sort. -/
def insertSorted (le : CompanyData → CompanyData → Bool) (a : CompanyData) :
    List CompanyData → List CompanyData
  | [] => [a]
  | b :: l => if le b a then b :: insertSorted le a l else a :: b :: l

/-- Insertion sort with `le`. -/
def isort (le : CompanyData → CompanyData → Bool) : List CompanyData → List CompanyData
  | [] => []
  | a :: l => insertSorted le a (isort le l)

/-- `companies.sort(key=lambda x: x['name'])`: sort ascending by name
under Python string comparison. -/
def sortByName (l : List CompanyData) : List CompanyData :=
  isort (fun a b => pyStrLe a.name b.name) l

/-- The row loop of app.py's `get_company_news`: no name validation at
all — every row is turned into a record, classified, bucketed and the
buckets sorted by name. -/
def app_aggregate (rows : List Row) : DailyReport :=
  let tagged := rows.map (fun r =>
    let company_name := pyStrip r.company_name
    let text := optStr r.extracted_text
    ({ name := company_name
       text := text
       links_raw := optStr r.extracted_links
       has_content := decide ((pyStrip text).length > 0) }, categorize_company_news r.extracted_text))
  let w := (tagged.filter (fun t => decide (t.2 = .has_news))).map Prod.fst
  let n := (tagged.filter (fun t => !decide (t.2 = .has_news))).map Prod.fst
  { withNews := sortByName w
    noNews := sortByName n
    total_companies := w.length + n.length
    news_count := w.length
    no_news_count := n.length }

/-- The skip condition of csv_server.py's `serve_company_news` row
loop: stripped name longer than 50 characters or starting with a
merge-conflict marker. -/
def csv_skip_row (company_name : PyStr) : Bool :=
  decide (company_name.length > 50) ||
    pyStartswith (pystr ("=======")) company_name ||
    pyStartswith (pystr ("<<<<<<<")) company_name ||
    pyStartswith (pystr (">>>>>>>")) company_name

/-- The row loop of csv_server.py's `serve_company_news`: rows failing
`csv_skip_row` are dropped; text and links cells are stringified and
stripped; classification is `has_significant_news`; buckets are sorted
by name. -/
def csv_aggregate (rows : List Row) : DailyReport :=
  let tagged := rows.filterMap (fun r =>
    let company_name := pyStrip r.company_name
    if csv_skip_row company_name then none
    else
      let text := pyStrip (optStr r.extracted_text)
      some ({ name := company_name
              text := text
              links_raw := pyStrip (optStr r.extracted_links)
              has_content := decide (text.length > 0) }, has_significant_news text))
  let w := (tagged.filter (fun t => t.2)).map Prod.fst
  let n := (tagged.filter (fun t => !t.2)).map Prod.fst
  { withNews := sortByName w
    noNews := sortByName n
    total_companies := w.length + n.length
    news_count := w.length
    no_news_count := n.length }

/-- The per-company detail object build.py writes to
`company-details-<date>-<name>.json` (and app.py / csv_server.py serve
on the details endpoint). -/
structure CompanyDetails where
  company_name : PyStr
  extracted_text : PyStr
  links_raw : PyStr
  processed_links : List PyStr
  date : PyStr
deriving DecidableEq

/-- Python `dict` insertion: an existing key keeps its position and
gets the new value; a new key is appended. -/
def dictInsert (k : PyStr) (v : CompanyDetails) :
    List (PyStr × CompanyDetails) → List (PyStr × CompanyDetails)
  | [] => [(k, v)]
  | (k0, v0) :: rest =>
    if k0 = k then (k0, v) :: rest else (k0, v0) :: dictInsert k v rest

/-- The skip condition of build.py's row loop: everything
`csv_skip_row` drops, plus any name containing a dot among its first
ten characters. -/
def build_skip_row (company_name : PyStr) : Bool :=
  csv_skip_row company_name || decide ('.' ∈ company_name.take 10)

/-- The classification part of build.py's row loop for one CSV: rows
failing `build_skip_row` are dropped; surviving rows are classified
with `categorize_company_news` on the stripped text. -/
def build_tagged (rows : List Row) : List (CompanyData × NewsCategory) :=
  rows.filterMap (fun r =>
    let company_name := pyStrip r.company_name
    if build_skip_row company_name then none
    else
      let extracted_text := pyStrip (optStr r.extracted_text)
      some ({ name := company_name
              text := extracted_text
              links_raw := optStr r.extracted_links
              has_content := decide (extracted_text.length > 0) },
        categorize_company_news (some extracted_text)))

/-- The details part of build.py's row loop: the `company_details`
dictionary keyed by company name, built row by row with delimiter-split
`process_links`; a repeated name overwrites the stored value. -/
def build_details (parsed_date : PyStr) (rows : List Row) : List (PyStr × CompanyDetails) :=
  rows.foldl (fun acc r =>
    let company_name := pyStrip r.company_name
    if build_skip_row company_name then acc
    else
      let extracted_text := pyStrip (optStr r.extracted_text)
      let links_val := optStr r.extracted_links
      dictInsert company_name
        { company_name := company_name
          extracted_text := extracted_text
          links_raw := links_val
          processed_links := process_links (some links_val)
          date := parsed_date } acc) []

/-- The row loop of build.py's `main` for one CSV: the report with
sorted buckets, paired with the company-details dictionary. -/
def build_aggregate (parsed_date : PyStr) (rows : List Row) :
    DailyReport × List (PyStr × CompanyDetails) :=
  let tagged := build_tagged rows
  let w := (tagged.filter (fun t => decide (t.2 = .has_news))).map Prod.fst
  let n := (tagged.filter (fun t => !decide (t.2 = .has_news))).map Prod.fst
  ({ withNews := sortByName w
     noNews := sortByName n
     total_companies := w.length + n.length
     news_count := w.length
     no_news_count := n.length }, build_details parsed_date rows)

/-! ## Date listing and lookups -/

/-- One entry of the available-dates listing.  The human-readable
`display_date` produced by `strftime` is presentation-only and not
modelled. -/
structure DateEntry where
  date : PyStr
  filename : PyStr
deriving DecidableEq

/-- Insertion step for the descending stable sort of date entries. -/
def insertDateDesc (a : DateEntry) : List DateEntry → List DateEntry
  | [] => [a]
  | b :: l => if pyStrLe a.date b.date then insertDateDesc a l |> (b :: ·) else a :: b :: l

/-- `dates.sort(key=..., reverse=True)`: sort newest first. -/
def sortDatesDesc : List DateEntry → List DateEntry
  | [] => []
  | a :: l => insertDateDesc a (sortDatesDesc l)

/-- The available-dates listing (same logic in all three entry
points): keep each CSV filename whose date parses, newest first. -/
def available_dates (files : List PyStr) : List DateEntry :=
  sortDatesDesc (files.filterMap (fun f =>
    (parse_date_from_filename f).map (fun d => { date := d, filename := f })))

/-- The file-search loop of app.py's `get_company_news` and
`get_company_details`: the first CSV file whose parsed filename date
equals the requested date, or `none` (a 404) if there is none. -/
def app_find_csv (files : List PyStr) (date : PyStr) : Option PyStr :=
  files.find? (fun f => decide (parse_date_from_filename f = some date))

/-- Python `s.lstrip(c)` for one character: drop every leading `c`. -/
def lstripChar (c : Char) (s : PyStr) : PyStr := s.dropWhile (fun x => decide (x = c))

/-- The single candidate filename csv_server.py's `find_csv_for_date`
rebuilds from an ISO date: split on dashes into exactly three parts,
strip leading zeros from day and month, and reassemble
day.month.year.csv.  A date that does not split into three parts
raises in Python and is caught, giving `none`. -/
def csv_candidate_filename (date : PyStr) : Option PyStr :=
  match pySplit '-' date with
  | [year, month, day] =>
    some (lstripChar '0' day ++ ('.' :: lstripChar '0' month) ++ ('.' :: year) ++ pystr (".csv"))
  | _ => none

/-- `find_csv_for_date` of csv_server.py: the rebuilt candidate
filename when it exists in the data directory (modelled as the list of
filenames present), else `none` (a 404). -/
def find_csv_for_date (files : List PyStr) (date : PyStr) : Option PyStr :=
  match csv_candidate_filename date with
  | some fn => if fn ∈ files then some fn else none
  | none => none

/-- The company filter of app.py's `get_company_details`:
`df[df['Company_Name'].str.strip() == company_name]`, taking the first
matching row; exact, case-sensitive equality on the stripped name. -/
def app_find_company (rows : List Row) (company_name : PyStr) : Option Row :=
  rows.find? (fun r => decide (pyStrip r.company_name = company_name))

/-- The match predicate of csv_server.py's `serve_company_details`:
either lowercased name contains the other (requested inside stripped
row name, or stripped row name inside requested). -/
def csv_company_match (company : PyStr) (row_company : PyStr) : Bool :=
  pyIn (pyLower company) (pyLower row_company) ||
    pyIn (pyLower row_company) (pyLower company)

/-- The company loop of csv_server.py's `serve_company_details`: the
first row whose stripped name cross-matches the requested name
case-insensitively, or `none` (a 404). -/
def csv_find_company (rows : List Row) (company : PyStr) : Option Row :=
  rows.find? (fun r => csv_company_match company (pyStrip r.company_name))
/-! ## Keep-first deduplication (specification side) -/

/-- Worker for `firstDedup`; structural on fuel, and `fuel ≥ l.length`
suffices because the recursive argument is a filtering of the tail. -/
def firstDedupAux : Nat → List PyStr → List PyStr
  | 0, _ => []
  | _ + 1, [] => []
  | fuel + 1, u :: us => u :: firstDedupAux fuel (us.filter (fun v => decide (v ≠ u)))

/-- Modelled from the spec: deduplication by exact string that keeps
the first occurrence of each element, preserving first-seen order. -/
def firstDedup (l : List PyStr) : List PyStr := firstDedupAux l.length l

/-- The intermediate list of csv_server.py's `process_links` before its
seen-set check: regex matches with trailing punctuation stripped, kept
when non-empty and longer than 10 characters. -/
def csvCleanedUrls (s : PyStr) : List PyStr :=
  ((scanUrls s).map stripTrailingPunct).filter
    (fun u => decide (u ≠ []) && decide (u.length > 10))

/-! ## Helper lemmas: strings -/

theorem pyStartswith_append_left (p q : PyStr) :
    ∀ s, pyStartswith (p ++ q) s = true → pyStartswith p s = true := by
  induction p with
  | nil => intro s _; rfl
  | cons a p ih =>
    intro s h
    cases s with
    | nil => simp [pyStartswith] at h
    | cons b s =>
      simp only [List.cons_append, pyStartswith, Bool.and_eq_true, decide_eq_true_eq] at h ⊢
      exact ⟨h.1, ih s h.2⟩

theorem pyIn_append_left (p q : PyStr) :
    ∀ s, pyIn (p ++ q) s = true → pyIn p s = true := by
  intro s
  induction s with
  | nil =>
    intro h
    exact pyStartswith_append_left p q [] h
  | cons c rest ih =>
    simp only [pyIn, Bool.or_eq_true]
    rintro (h | h)
    · exact Or.inl (pyStartswith_append_left p q _ h)
    · exact Or.inr (ih h)

theorem pyStrLe_trans :
    ∀ a b c : PyStr, pyStrLe a b = true → pyStrLe b c = true → pyStrLe a c = true := by
  intro a
  induction a with
  | nil => intro b c _ _; rfl
  | cons x xs ih =>
    intro b c h1 h2
    cases b with
    | nil => simp [pyStrLe] at h1
    | cons y ys =>
      cases c with
      | nil => simp [pyStrLe] at h2
      | cons z zs =>
        simp only [pyStrLe] at h1 h2 ⊢
        by_cases hxy : x = y
        · by_cases hyz : y = z
          · simp only [hxy, hyz, if_pos rfl] at h1 h2 ⊢
            subst hxy
            exact ih ys zs h1 h2
          · simp only [if_neg hyz, decide_eq_true_eq] at h2
            subst hxy
            simp only [if_neg hyz, decide_eq_true_eq]
            exact h2
        · simp only [if_neg hxy, decide_eq_true_eq] at h1
          by_cases hyz : y = z
          · subst hyz
            simp only [if_neg hxy, decide_eq_true_eq]
            exact h1
          · simp only [if_neg hyz, decide_eq_true_eq] at h2
            have hxz : x < z := lt_trans h1 h2
            simp only [if_neg (ne_of_lt hxz), decide_eq_true_eq]
            exact hxz

theorem pyStrLe_total : ∀ a b : PyStr, pyStrLe a b = true ∨ pyStrLe b a = true := by
  intro a
  induction a with
  | nil => intro b; exact Or.inl rfl
  | cons x xs ih =>
    intro b
    cases b with
    | nil => exact Or.inr rfl
    | cons y ys =>
      simp only [pyStrLe]
      by_cases hxy : x = y
      · subst hxy
        simp only [if_pos rfl]
        exact ih ys
      · rcases lt_or_gt_of_ne hxy with h | h
        · exact Or.inl (by simp [if_neg hxy, h])
        · have : y ≠ x := ne_of_lt h
          exact Or.inr (by simp [if_neg this, h])

/-! ## Helper lemmas: sorting and partitioning -/

theorem mem_insertSorted (le : CompanyData → CompanyData → Bool) (a x : CompanyData) :
    ∀ l, x ∈ insertSorted le a l ↔ x = a ∨ x ∈ l := by
  intro l
  induction l with
  | nil => simp [insertSorted]
  | cons b l ih =>
    simp only [insertSorted]
    cases h : le b a
    · simp only [h, Bool.false_eq_true, if_false, List.mem_cons]
    · simp only [h, if_true, List.mem_cons, ih]
      tauto

theorem length_insertSorted (le : CompanyData → CompanyData → Bool) (a : CompanyData) :
    ∀ l, (insertSorted le a l).length = l.length + 1 := by
  intro l
  induction l with
  | nil => rfl
  | cons b l ih =>
    simp only [insertSorted]
    by_cases h : le b a <;> simp [h, ih]

theorem pairwise_insertSorted (a : CompanyData) (l : List CompanyData)
    (h : l.Pairwise (fun x y => pyStrLe x.name y.name = true)) :
    (insertSorted (fun x y => pyStrLe x.name y.name) a l).Pairwise
      (fun x y => pyStrLe x.name y.name = true) := by
  induction l with
  | nil => simp [insertSorted]
  | cons b l ih =>
    rcases List.pairwise_cons.mp h with ⟨hb, hl⟩
    simp only [insertSorted]
    by_cases hba : pyStrLe b.name a.name = true
    · simp only [hba, if_true]
      refine List.pairwise_cons.mpr ⟨?_, ih hl⟩
      intro x hx
      rcases (mem_insertSorted _ a x l).mp hx with rfl | hx
      · exact hba
      · exact hb x hx
    · simp only [hba, if_false]
      have hab : pyStrLe a.name b.name = true := by
        rcases pyStrLe_total a.name b.name with h' | h'
        · exact h'
        · exact absurd h' hba
      refine List.pairwise_cons.mpr ⟨?_, h⟩
      intro x hx
      rcases List.mem_cons.mp hx with rfl | hx
      · exact hab
      · exact pyStrLe_trans _ _ _ hab (hb x hx)

theorem mem_sortByName (x : CompanyData) : ∀ l, x ∈ sortByName l ↔ x ∈ l := by
  intro l
  induction l with
  | nil => simp [sortByName, isort]
  | cons a l ih =>
    simp only [sortByName, isort] at ih ⊢
    rw [mem_insertSorted, ih, List.mem_cons]

theorem length_sortByName : ∀ l, (sortByName l).length = l.length := by
  intro l
  induction l with
  | nil => rfl
  | cons a l ih =>
    simp only [sortByName, isort] at ih ⊢
    rw [length_insertSorted, ih]
    rfl

theorem pairwise_sortByName :
    ∀ l, (sortByName l).Pairwise (fun x y => pyStrLe x.name y.name = true) := by
  intro l
  induction l with
  | nil => simp [sortByName, isort]
  | cons a l ih =>
    simp only [sortByName, isort] at ih ⊢
    exact pairwise_insertSorted a _ ih

theorem length_filter_add_length_filter_not {α : Type} (p : α → Bool) :
    ∀ l : List α, (l.filter p).length + (l.filter (fun a => !p a)).length = l.length := by
  intro l
  induction l with
  | nil => rfl
  | cons a l ih =>
    by_cases h : p a <;> simp [List.filter_cons, h, ih] <;> omega

/-! ## Helper lemmas: filename parsing -/

theorem pyRemoveAux_nil (pat : PyStr) : ∀ fuel, pyRemoveAux pat fuel [] = [] := by
  intro fuel
  cases fuel <;> rfl

theorem pystr_csv_eq : pystr (".csv") = ['.', 'c', 's', 'v'] := by decide

theorem pyRemoveAux_no_c :
    ∀ (u : PyStr), 'c' ∉ u → ∀ fuel, u.length + 4 ≤ fuel →
      pyRemoveAux ['.', 'c', 's', 'v'] fuel (u ++ ['.', 'c', 's', 'v']) = u := by
  intro u
  induction u with
  | nil =>
    intro _ fuel hfuel
    match fuel, hfuel with
    | f + 1, _ =>
      show pyRemoveAux ['.', 'c', 's', 'v'] (f + 1) ([] ++ ['.', 'c', 's', 'v']) = []
      rw [List.nil_append]
      have hstart : pyStartswith ['.', 'c', 's', 'v'] ['.', 'c', 's', 'v'] = true := rfl
      simp only [pyRemoveAux, hstart, if_true]
      rw [show List.drop ((['.', 'c', 's', 'v'] : PyStr).length - 1) ['c', 's', 'v'] =
        ([] : PyStr) from rfl]
      exact pyRemoveAux_nil _ f
  | cons a u ih =>
    intro hc fuel hfuel
    have hcu : 'c' ∉ u := fun h => hc (List.mem_cons_of_mem a h)
    match fuel, hfuel with
    | f + 1, hfuel =>
      show pyRemoveAux ['.', 'c', 's', 'v'] (f + 1) ((a :: u) ++ ['.', 'c', 's', 'v']) = a :: u
      have key : pyStartswith ['c', 's', 'v'] (u ++ ['.', 'c', 's', 'v']) = false := by
        cases u with
        | nil => rfl
        | cons b u' =>
          have hb : b ≠ 'c' := fun h => hcu (by rw [h]; exact List.mem_cons_self _ _)
          show (decide ('c' = b) && pyStartswith ['s', 'v'] (u' ++ ['.', 'c', 's', 'v'])) = false
          rw [decide_eq_false (fun h => hb h.symm)]
          rfl
      have hnostart :
          pyStartswith ['.', 'c', 's', 'v'] (a :: (u ++ ['.', 'c', 's', 'v'])) = false := by
        show (decide ('.' = a) && pyStartswith ['c', 's', 'v'] (u ++ ['.', 'c', 's', 'v'])) = false
        rw [key]
        exact Bool.and_false _
      rw [List.cons_append]
      simp only [pyRemoveAux, hnostart, Bool.false_eq_true, if_false, List.cons.injEq, true_and]
      refine ih hcu f ?_
      have : (a :: u).length = u.length + 1 := rfl
      omega

theorem pyRemoveAll_no_c (u : PyStr) (h : 'c' ∉ u) :
    pyRemoveAll (pystr (".csv")) (u ++ pystr (".csv")) = u := by
  rw [pystr_csv_eq]
  have hlen : (u ++ ['.', 'c', 's', 'v']).length = u.length + 4 := by simp
  unfold pyRemoveAll
  rw [hlen]
  exact pyRemoveAux_no_c u h _ (le_refl _)

theorem pySplit_ne_nil (sep : Char) : ∀ s, pySplit sep s ≠ [] := by
  intro s
  cases s with
  | nil => simp [pySplit]
  | cons c rest =>
    simp only [pySplit]
    by_cases h : c = sep
    · simp [h]
    · simp only [h, if_false]
      cases hs : pySplit sep rest <;> simp

theorem pySplit_no_sep (sep : Char) : ∀ s, sep ∉ s → pySplit sep s = [s] := by
  intro s
  induction s with
  | nil => intro _; rfl
  | cons c rest ih =>
    intro h
    have hc : c ≠ sep := fun hq => h (hq ▸ List.mem_cons_self c rest)
    have hr : sep ∉ rest := fun hq => h (List.mem_cons_of_mem c hq)
    simp only [pySplit, hc, if_false, ih hr]

theorem pySplit_append (sep : Char) :
    ∀ (p : PyStr), sep ∉ p → ∀ rest, pySplit sep (p ++ sep :: rest) = p :: pySplit sep rest := by
  intro p
  induction p with
  | nil =>
    intro _ rest
    simp [pySplit]
  | cons c p ih =>
    intro h rest
    have hc : c ≠ sep := fun hq => h (hq ▸ List.mem_cons_self c p)
    have hp : sep ∉ p := fun hq => h (List.mem_cons_of_mem c hq)
    simp only [List.cons_append, pySplit, hc, if_false, List.append_eq]
    rw [ih hp rest]

/-! ## Helper lemmas: keep-first deduplication -/

theorem firstDedupAux_eq :
    ∀ fuel (l : List PyStr), l.length ≤ fuel → firstDedupAux fuel l = firstDedup l := by
  intro fuel
  induction fuel using Nat.strong_induction_on with
  | _ fuel ih =>
    intro l hl
    match fuel, l, hl with
    | 0, [], _ => rfl
    | f + 1, [], _ => rfl
    | f + 1, u :: us, hl =>
      have hus : us.length ≤ f := by
        have : (u :: us).length = us.length + 1 := rfl
        omega
      have hfil : (us.filter (fun v => decide (v ≠ u))).length ≤ us.length :=
        List.length_filter_le _ _
      show u :: firstDedupAux f (us.filter (fun v => decide (v ≠ u))) = firstDedup (u :: us)
      have h1 : firstDedupAux f (us.filter (fun v => decide (v ≠ u))) =
          firstDedup (us.filter (fun v => decide (v ≠ u))) :=
        ih f (Nat.lt_succ_self f) _ (le_trans hfil hus)
      have h2 : firstDedup (u :: us) =
          u :: firstDedupAux us.length (us.filter (fun v => decide (v ≠ u))) := rfl
      have h3 : firstDedupAux us.length (us.filter (fun v => decide (v ≠ u))) =
          firstDedup (us.filter (fun v => decide (v ≠ u))) :=
        ih us.length (by omega) _ hfil
      rw [h1, h2, h3]

theorem firstDedup_cons (u : PyStr) (us : List PyStr) :
    firstDedup (u :: us) = u :: firstDedup (us.filter (fun v => decide (v ≠ u))) := by
  show u :: firstDedupAux us.length (us.filter (fun v => decide (v ≠ u))) = _
  rw [firstDedupAux_eq us.length _ (List.length_filter_le _ _)]

theorem firstDedup_sublist_fuel :
    ∀ n (l : List PyStr), l.length ≤ n → List.Sublist (firstDedup l) l := by
  intro n
  induction n with
  | zero =>
    intro l hl
    match l, hl with
    | [], _ => exact List.Sublist.refl _
  | succ n ih =>
    intro l hl
    match l with
    | [] => exact List.Sublist.refl _
    | u :: us =>
      rw [firstDedup_cons]
      refine List.Sublist.cons₂ u ?_
      have h1 : List.Sublist (firstDedup (us.filter (fun v => decide (v ≠ u))))
          (us.filter (fun v => decide (v ≠ u))) := by
        refine ih _ (le_trans (List.length_filter_le _ _) ?_)
        have : (u :: us).length = us.length + 1 := rfl
        omega
      exact h1.trans (List.filter_sublist us)

theorem firstDedup_sublist (l : List PyStr) : List.Sublist (firstDedup l) l :=
  firstDedup_sublist_fuel l.length l (le_refl _)

theorem firstDedup_nodup_fuel : ∀ n (l : List PyStr), l.length ≤ n → (firstDedup l).Nodup := by
  intro n
  induction n with
  | zero =>
    intro l hl
    match l, hl with
    | [], _ => exact List.nodup_nil
  | succ n ih =>
    intro l hl
    match l with
    | [] => exact List.nodup_nil
    | u :: us =>
      rw [firstDedup_cons]
      refine List.nodup_cons.mpr ⟨?_, ?_⟩
      · intro hmem
        have hsub := firstDedup_sublist (us.filter (fun v => decide (v ≠ u)))
        have := hsub.mem hmem
        rcases List.mem_filter.mp this with ⟨-, hne⟩
        simp at hne
      · refine ih _ (le_trans (List.length_filter_le _ _) ?_)
        have : (u :: us).length = us.length + 1 := rfl
        omega

theorem firstDedup_nodup (l : List PyStr) : (firstDedup l).Nodup :=
  firstDedup_nodup_fuel l.length l (le_refl _)

theorem mem_firstDedup_fuel : ∀ n (l : List PyStr), l.length ≤ n → ∀ x ∈ l, x ∈ firstDedup l := by
  intro n
  induction n with
  | zero =>
    intro l hl
    match l, hl with
    | [], _ => intro x hx; exact absurd hx (List.not_mem_nil x)
  | succ n ih =>
    intro l hl
    match l with
    | [] => intro x hx; exact absurd hx (List.not_mem_nil x)
    | u :: us =>
      intro x hx
      rw [firstDedup_cons]
      rcases List.mem_cons.mp hx with rfl | hx
      · exact List.mem_cons_self _ _
      · by_cases hxu : x = u
        · subst hxu; exact List.mem_cons_self _ _
        · refine List.mem_cons_of_mem _ ?_
          refine ih _ (le_trans (List.length_filter_le _ _) ?_) x ?_
          · have : (u :: us).length = us.length + 1 := rfl
            omega
          · exact List.mem_filter.mpr ⟨hx, by simpa using hxu⟩

theorem mem_firstDedup (l : List PyStr) (x : PyStr) (hx : x ∈ l) : x ∈ firstDedup l :=
  mem_firstDedup_fuel l.length l (le_refl _) x hx

theorem filter_notmem_cons (l : List PyStr) (v : PyStr) (seen : List PyStr) :
    l.filter (fun u => decide (¬ u ∈ v :: seen)) =
      (l.filter (fun u => decide (¬ u ∈ seen))).filter (fun u => decide (u ≠ v)) := by
  rw [List.filter_filter]
  refine List.filter_congr ?_
  intro a _
  by_cases h : a = v <;> by_cases h2 : a ∈ seen <;> simp [h, h2]

theorem csv_clean_urls_eq :
    ∀ (us seen : List PyStr),
      csv_clean_urls seen us =
        firstDedup (((us.map stripTrailingPunct).filter
            (fun u => decide (u ≠ []) && decide (u.length > 10))).filter
          (fun u => decide (¬ u ∈ seen))) := by
  intro us
  induction us with
  | nil => intro seen; rfl
  | cons u0 us ih =>
    intro seen
    have hunf : csv_clean_urls seen (u0 :: us) =
        (if stripTrailingPunct u0 ≠ [] ∧ ¬ stripTrailingPunct u0 ∈ seen ∧
            (stripTrailingPunct u0).length > 10 then
          stripTrailingPunct u0 :: csv_clean_urls (stripTrailingPunct u0 :: seen) us
        else csv_clean_urls seen us) := rfl
    rw [hunf, List.map_cons]
    by_cases h1 : stripTrailingPunct u0 = []
    · rw [if_neg (by tauto)]
      rw [List.filter_cons, if_neg (by simp [h1])]
      exact ih seen
    · by_cases h2 : (stripTrailingPunct u0).length > 10
      · by_cases h3 : stripTrailingPunct u0 ∈ seen
        · rw [if_neg (by tauto)]
          rw [List.filter_cons, if_pos (by simp [h1, h2])]
          rw [List.filter_cons, if_neg (by simp [h3])]
          exact ih seen
        · rw [if_pos ⟨h1, h3, h2⟩]
          rw [List.filter_cons, if_pos (by simp [h1, h2])]
          rw [List.filter_cons, if_pos (by simp [h3])]
          rw [firstDedup_cons, ih (stripTrailingPunct u0 :: seen), filter_notmem_cons]
      · rw [if_neg (by tauto)]
        rw [List.filter_cons, if_neg (by simp [h2])]
        exact ih seen

/-! ## Helper lemmas: aggregate membership -/

theorem mem_csv_aggregate (rows : List Row) (rec : CompanyData)
    (h : rec ∈ (csv_aggregate rows).withNews ++ (csv_aggregate rows).noNews) :
    ∃ r, r ∈ rows ∧ csv_skip_row (pyStrip r.company_name) = false ∧
      rec.name = pyStrip r.company_name := by
  rw [List.mem_append] at h
  simp only [csv_aggregate, mem_sortByName, List.mem_map, List.mem_filter,
    List.mem_filterMap] at h
  have h' : ∃ t : CompanyData × Bool, (∃ r, r ∈ rows ∧
      (if csv_skip_row (pyStrip r.company_name) then none
       else some ({ name := pyStrip r.company_name
                    text := pyStrip (optStr r.extracted_text)
                    links_raw := pyStrip (optStr r.extracted_links)
                    has_content :=
                      decide ((pyStrip (optStr r.extracted_text)).length > 0) },
         has_significant_news (pyStrip (optStr r.extracted_text)))) = some t) ∧
      t.1 = rec := by
    rcases h with ⟨t, ⟨hsrc, _⟩, ht⟩ | ⟨t, ⟨hsrc, _⟩, ht⟩ <;> exact ⟨t, hsrc, ht⟩
  rcases h' with ⟨t, ⟨r, hr, hfr⟩, ht⟩
  by_cases hskip : csv_skip_row (pyStrip r.company_name) = true
  · rw [if_pos hskip] at hfr
    exact absurd hfr (by simp)
  · rw [if_neg hskip] at hfr
    refine ⟨r, hr, by simpa using hskip, ?_⟩
    have := Option.some.inj hfr
    rw [← ht, ← this]

theorem mem_build_tagged (rows : List Row) (rec : CompanyData)
    (h : rec ∈ (build_tagged rows).map Prod.fst) :
    ∃ r, r ∈ rows ∧ build_skip_row (pyStrip r.company_name) = false ∧
      rec.name = pyStrip r.company_name := by
  simp only [build_tagged, List.mem_map, List.mem_filterMap] at h
  rcases h with ⟨t, ⟨r, hr, hfr⟩, ht⟩
  by_cases hskip : build_skip_row (pyStrip r.company_name) = true
  · rw [if_pos hskip] at hfr
    exact absurd hfr (by simp)
  · rw [if_neg hskip] at hfr
    refine ⟨r, hr, by simpa using hskip, ?_⟩
    have := Option.some.inj hfr
    rw [← ht, ← this]

theorem mem_build_aggregate (pd : PyStr) (rows : List Row) (rec : CompanyData)
    (h : rec ∈ (build_aggregate pd rows).1.withNews ++ (build_aggregate pd rows).1.noNews) :
    ∃ r, r ∈ rows ∧ build_skip_row (pyStrip r.company_name) = false ∧
      rec.name = pyStrip r.company_name := by
  rw [List.mem_append] at h
  simp only [build_aggregate, mem_sortByName, List.mem_map, List.mem_filter] at h
  refine mem_build_tagged rows rec ?_
  rw [List.mem_map]
  rcases h with ⟨t, ⟨hsrc, _⟩, ht⟩ | ⟨t, ⟨hsrc, _⟩, ht⟩ <;> exact ⟨t, hsrc, ht⟩

theorem mem_dictInsert (k : PyStr) (v : CompanyDetails) (kv : PyStr × CompanyDetails) :
    ∀ d, kv ∈ dictInsert k v d → kv.1 = k ∨ kv ∈ d := by
  intro d
  induction d with
  | nil =>
    intro h
    rcases List.mem_cons.mp h with rfl | h
    · exact Or.inl rfl
    · exact absurd h (List.not_mem_nil kv)
  | cons p rest ih =>
    rcases p with ⟨k0, v0⟩
    simp only [dictInsert]
    by_cases hk : k0 = k
    · rw [if_pos hk]
      intro h
      rcases List.mem_cons.mp h with rfl | h
      · exact Or.inl hk
      · exact Or.inr (List.mem_cons_of_mem _ h)
    · rw [if_neg hk]
      intro h
      rcases List.mem_cons.mp h with rfl | h
      · exact Or.inr (List.mem_cons_self _ _)
      · rcases ih h with h' | h'
        · exact Or.inl h'
        · exact Or.inr (List.mem_cons_of_mem _ h')

theorem mem_build_details (pd : PyStr) (rows : List Row) (kv : PyStr × CompanyDetails)
    (h : kv ∈ build_details pd rows) : build_skip_row kv.1 = false := by
  suffices key : ∀ (rs : List Row) (acc : List (PyStr × CompanyDetails)),
      (∀ kv0 ∈ acc, build_skip_row kv0.1 = false) →
      ∀ kv0 ∈ rs.foldl (fun acc r =>
        let company_name := pyStrip r.company_name
        if build_skip_row company_name then acc
        else
          let extracted_text := pyStrip (optStr r.extracted_text)
          let links_val := optStr r.extracted_links
          dictInsert company_name
            { company_name := company_name
              extracted_text := extracted_text
              links_raw := links_val
              processed_links := process_links (some links_val)
              date := pd } acc) acc, build_skip_row kv0.1 = false by
    exact key rows [] (by intro kv0 h0; exact absurd h0 (List.not_mem_nil kv0)) kv h
  intro rs
  induction rs with
  | nil =>
    intro acc hacc kv0 h0
    exact hacc kv0 h0
  | cons r rs ih =>
    intro acc hacc kv0 h0
    rw [List.foldl_cons] at h0
    refine ih _ ?_ kv0 h0
    by_cases hskip : build_skip_row (pyStrip r.company_name) = true
    · simpa only [if_pos hskip] using hacc
    · intro kv1 h1
      rw [if_neg hskip] at h1
      rcases mem_dictInsert _ _ kv1 _ h1 with heq | h1
      · rw [heq]
        simpa using hskip
      · exact hacc kv1 h1

/-! ## Helper lemmas: classifier -/

theorem patterns_any_eq (ts : PyStr) :
    no_news_patterns.any (fun p => pyIn p ts) =
      spec_no_news_patterns.any (fun p => pyIn p ts) := by
  have hsplit : pystr ("no significant corporate developments for") =
      pystr ("no significant corporate developments") ++ pystr (" for") := by decide
  simp only [no_news_patterns, spec_no_news_patterns, List.any_cons]
  cases hfor : pyIn (pystr ("no significant corporate developments for")) ts
  · simp
  · have h2 : pyIn (pystr ("no significant corporate developments")) ts = true := by
      refine pyIn_append_left _ (pystr (" for")) ts ?_
      rw [← hsplit]
      exact hfor
    simp [h2]

/-! ## Claim theorems -/

/-- Claim C3 (counterexample): the socket-server variant
`has_significant_news` does not equal the specification's five-rule
decision list: this 87-character text contains the listed phrase
"no significant" (so the decision list says no news) but none of the
nine phrases csv_server.py checks, so `has_significant_news` reports
news. -/
theorem claim_C3_counterexample :
    has_significant_news
        (pystr ("the board said there were no significant changes and shareholders were pleased overall")) =
        true ∧
      spec_classifier
        (some (pystr ("the board said there were no significant changes and shareholders were pleased overall"))) =
        NewsCategory.no_news ∧
      categorize_company_news
        (some (pystr ("the board said there were no significant changes and shareholders were pleased overall"))) =
        NewsCategory.no_news := by
  refine ⟨by decide, by decide, by decide⟩

/-- Claim C3 (amended): the classifier of app.py and build.py equals
the specification's five-rule ordered decision list for every input
(the thirteenth code phrase "no significant corporate developments for"
is subsumed by the listed phrase "no significant corporate
developments"); the socket-server variant `has_significant_news`, which
has only nine phrases, no regex rule and no trim before lowercasing,
diverges from the decision list. -/
theorem claim_C3_amended : ∀ t, categorize_company_news t = spec_classifier t := by
  intro t
  cases t with
  | none => rfl
  | some s =>
    simp only [categorize_company_news, spec_classifier]
    rw [patterns_any_eq (pyLower (pyStrip s))]

/-- Claim C2 (counterexample): the parser does not reject non-numeric
parts or a missing ".csv" suffix — "ab.cd.efgh.csv" parses to
"efgh-cd-ab" and "1.2.2025" (no suffix) parses to "2025-02-01", where
the claim requires no result for both. -/
theorem claim_C2_counterexample :
    parse_date_from_filename (pystr ("ab.cd.efgh.csv")) = some (pystr ("efgh-cd-ab")) ∧
      parse_date_from_filename (pystr ("1.2.2025")) = some (pystr ("2025-02-01")) := by
  refine ⟨by decide, by decide⟩

/-- Claim C2 (amended): for filenames of the exact form D.M.YYYY.csv
with non-empty all-digit parts the parser returns YYYY-MM-DD with month
and day zero-filled to width two; in general it returns no result if
and only if removing every occurrence of ".csv" and splitting on dots
does not yield exactly three parts — neither numericity nor the suffix
is checked. -/
theorem claim_C2_amended :
    (∀ d m y : PyStr, d ≠ [] → m ≠ [] → y ≠ [] →
      (∀ c ∈ d ++ m ++ y, c.isDigit = true) →
      parse_date_from_filename (d ++ ('.' :: m) ++ ('.' :: y) ++ pystr (".csv")) =
        some (y ++ ('-' :: pyZfill 2 m) ++ ('-' :: pyZfill 2 d))) ∧
    (∀ f, parse_date_from_filename f = none ↔
      (pySplit '.' (pyRemoveAll (pystr (".csv")) f)).length ≠ 3) := by
  constructor
  · intro d m y hd hm hy hdig
    have hok : ∀ c ∈ d ++ m ++ y, c ≠ '.' ∧ c ≠ 'c' := by
      intro c hc
      have hcd := hdig c hc
      constructor
      · rintro rfl
        exact absurd hcd (by decide)
      · rintro rfl
        exact absurd hcd (by decide)
    have hdotd : '.' ∉ d := fun h => (hok '.' (by simp [h])).1 rfl
    have hdotm : '.' ∉ m := fun h => (hok '.' (by simp [h])).1 rfl
    have hdoty : '.' ∉ y := fun h => (hok '.' (by simp [h])).1 rfl
    have hcu : 'c' ∉ (d ++ ('.' :: m) ++ ('.' :: y) : PyStr) := by
      intro h
      simp only [List.mem_append, List.mem_cons] at h
      rcases h with (h | h | h) | (h | h)
      · exact (hok 'c' (by simp [h])).2 rfl
      · exact absurd h.symm (by decide)
      · exact (hok 'c' (by simp [h])).2 rfl
      · exact absurd h.symm (by decide)
      · exact (hok 'c' (by simp [h])).2 rfl
    simp only [parse_date_from_filename]
    rw [show (d ++ ('.' :: m) ++ ('.' :: y) ++ pystr (".csv") : PyStr) =
      (d ++ ('.' :: m) ++ ('.' :: y)) ++ pystr (".csv") by simp [List.append_assoc]]
    rw [pyRemoveAll_no_c _ hcu]
    rw [show (d ++ ('.' :: m) ++ ('.' :: y) : PyStr) =
      d ++ ('.' :: (m ++ ('.' :: y))) by simp [List.append_assoc]]
    rw [pySplit_append '.' d hdotd, pySplit_append '.' m hdotm, pySplit_no_sep '.' y hdoty]
  · intro f
    simp only [parse_date_from_filename]
    generalize pySplit '.' (pyRemoveAll (pystr (".csv")) f) = parts
    rcases parts with _ | ⟨a, _ | ⟨b, _ | ⟨c, _ | ⟨dd, t⟩⟩⟩⟩
    · simp
    · simp
    · simp
    · simp
    · simp only [List.length_cons, ne_eq]
      constructor
      · intro _
        omega
      · intro _
        trivial

/-- Claim C2 (witness): the amended positive case at the concrete
filename 22.08.2025.csv. -/
theorem claim_C2_witness :
    parse_date_from_filename
        (pystr ("22") ++ ('.' :: pystr ("08")) ++ ('.' :: pystr ("2025")) ++ pystr (".csv")) =
      some (pystr ("2025") ++ ('-' :: pyZfill 2 (pystr ("08"))) ++
        ('-' :: pyZfill 2 (pystr ("22")))) :=
  claim_C2_amended.1 (pystr ("22")) (pystr ("08")) (pystr ("2025"))
    (by decide) (by decide) (by decide) (by decide)

/-- Claim C1 (counterexample): name validation is not shared by all
three entry points and emptiness is never checked.  The Flask app
(app.py) emits a row whose name is 60 characters long, and the socket
server (csv_server.py) emits a row whose trimmed name is empty; the
claim requires both rows to be dropped everywhere. -/
theorem claim_C1_counterexample :
    ((app_aggregate [{ company_name := pystr ("xxxxxxxxxxxxxxxxxxxxxxxxxxxxxxxxxxxxxxxxxxxxxxxxxxxxxxxxxxxx")
                       extracted_text := none
                       extracted_links := none }]).noNews.map CompanyData.name =
      [pystr ("xxxxxxxxxxxxxxxxxxxxxxxxxxxxxxxxxxxxxxxxxxxxxxxxxxxxxxxxxxxx")]) ∧
      (pystr ("xxxxxxxxxxxxxxxxxxxxxxxxxxxxxxxxxxxxxxxxxxxxxxxxxxxxxxxxxxxx")).length = 60 ∧
      ((csv_aggregate [{ company_name := pystr ("   ")
                         extracted_text := none
                         extracted_links := none }]).noNews.map CompanyData.name =
        [([] : PyStr)]) := by
  refine ⟨by decide, by decide, by decide⟩

/-- Claim C1 (amended): the socket-server and static-build variants
drop every row whose stripped name is longer than 50 characters or
begins with a merge-conflict marker, so their emitted records satisfy
those bounds; emptiness of the name is never checked, and the Flask app
performs no name validation at all, emitting one record per row. -/
theorem claim_C1_amended :
    (∀ rows rec, rec ∈ (csv_aggregate rows).withNews ++ (csv_aggregate rows).noNews →
      rec.name.length ≤ 50 ∧
        pyStartswith (pystr ("=======")) rec.name = false ∧
        pyStartswith (pystr ("<<<<<<<")) rec.name = false ∧
        pyStartswith (pystr (">>>>>>>")) rec.name = false) ∧
    (∀ pd rows rec,
      rec ∈ (build_aggregate pd rows).1.withNews ++ (build_aggregate pd rows).1.noNews →
      rec.name.length ≤ 50 ∧
        pyStartswith (pystr ("=======")) rec.name = false ∧
        pyStartswith (pystr ("<<<<<<<")) rec.name = false ∧
        pyStartswith (pystr (">>>>>>>")) rec.name = false) ∧
    (∀ rows, (app_aggregate rows).news_count + (app_aggregate rows).no_news_count =
      rows.length) := by
  refine ⟨?_, ?_, ?_⟩
  · intro rows rec h
    rcases mem_csv_aggregate rows rec h with ⟨r, -, hskip, hname⟩
    rw [hname]
    simp only [csv_skip_row, Bool.or_eq_false_iff, decide_eq_false_iff_not] at hskip
    obtain ⟨⟨⟨h1, h2⟩, h3⟩, h4⟩ := hskip
    exact ⟨by omega, h2, h3, h4⟩
  · intro pd rows rec h
    rcases mem_build_aggregate pd rows rec h with ⟨r, -, hskip, hname⟩
    rw [hname]
    simp only [build_skip_row, csv_skip_row, Bool.or_eq_false_iff,
      decide_eq_false_iff_not] at hskip
    obtain ⟨⟨⟨⟨h1, h2⟩, h3⟩, h4⟩, -⟩ := hskip
    exact ⟨by omega, h2, h3, h4⟩
  · intro rows
    show (((rows.map _).filter _).map Prod.fst).length +
      (((rows.map _).filter _).map Prod.fst).length = rows.length
    simp only [List.length_map]
    rw [length_filter_add_length_filter_not
      (fun t : CompanyData × NewsCategory => decide (t.2 = NewsCategory.has_news))]
    exact List.length_map rows _

/-- Claim C1 (witness): the amended socket-server invariant applied to
a concrete one-row table. -/
theorem claim_C1_witness :
    (pystr ("Acme Corp")).length ≤ 50 ∧
      pyStartswith (pystr ("=======")) (pystr ("Acme Corp")) = false ∧
      pyStartswith (pystr ("<<<<<<<")) (pystr ("Acme Corp")) = false ∧
      pyStartswith (pystr (">>>>>>>")) (pystr ("Acme Corp")) = false :=
  claim_C1_amended.1
    [{ company_name := pystr ("Acme Corp"), extracted_text := none, extracted_links := none }]
    { name := pystr ("Acme Corp"), text := [], links_raw := [], has_content := false }
    (by decide)

/-- Claim C5 (counterexample): the Flask lookup is exact-match only.
For a table containing "Acme Corp", requesting "acme" matches by
case-insensitive substring (as the claim requires) yet the Flask
lookup finds nothing, i.e. answers 404. -/
theorem claim_C5_counterexample :
    app_find_company
        [{ company_name := pystr ("Acme Corp"), extracted_text := none,
           extracted_links := none }]
        (pystr ("acme")) = none ∧
      pyIn (pyLower (pystr ("acme"))) (pyLower (pyStrip (pystr ("Acme Corp")))) = true := by
  refine ⟨by decide, by decide⟩

/-- Claim C5 (amended): the Flask lookup returns a record exactly when
some row's stripped name equals the requested name (case-sensitive),
404 otherwise; the socket-server lookup returns a record exactly when
the lowercased requested name and some row's lowercased stripped name
contain one another, 404 otherwise. -/
theorem claim_C5_amended :
    (∀ rows c, app_find_company rows c = none ↔
      ∀ r ∈ rows, pyStrip r.company_name ≠ c) ∧
    (∀ rows c, (app_find_company rows c).isSome ↔
      ∃ r, r ∈ rows ∧ pyStrip r.company_name = c) ∧
    (∀ rows c, csv_find_company rows c = none ↔
      ∀ r ∈ rows, csv_company_match c (pyStrip r.company_name) = false) ∧
    (∀ rows c, (csv_find_company rows c).isSome ↔
      ∃ r, r ∈ rows ∧ csv_company_match c (pyStrip r.company_name) = true) := by
  refine ⟨?_, ?_, ?_, ?_⟩
  · intro rows c
    rw [app_find_company, List.find?_eq_none]
    simp
  · intro rows c
    rw [app_find_company, List.find?_isSome]
    simp
  · intro rows c
    rw [csv_find_company, List.find?_eq_none]
    simp [Bool.not_eq_true]
  · intro rows c
    rw [csv_find_company, List.find?_isSome]

/-- Claim C5 (witness): the amended Flask characterisation applied to a
one-row table with an exact match. -/
theorem claim_C5_witness :
    (app_find_company
        [{ company_name := pystr ("Acme Corp"), extracted_text := none,
           extracted_links := none }]
        (pystr ("Acme Corp"))).isSome :=
  (claim_C5_amended.2.1
      [{ company_name := pystr ("Acme Corp"), extracted_text := none,
         extracted_links := none }]
      (pystr ("Acme Corp"))).mpr
    ⟨{ company_name := pystr ("Acme Corp"), extracted_text := none,
       extracted_links := none }, by decide, by decide⟩

/-- Claim C6 (counterexample): the filename "05.1.2026.csv" parses to
the date "2026-01-05", yet csv_server.py's `find_csv_for_date` answers
404 for that date because it rebuilds the single candidate name
"5.1.2026.csv" by stripping leading zeros; the Flask search finds the
file. -/
theorem claim_C6_counterexample :
    parse_date_from_filename (pystr ("05.1.2026.csv")) = some (pystr ("2026-01-05")) ∧
      find_csv_for_date [pystr ("05.1.2026.csv")] (pystr ("2026-01-05")) = none ∧
      app_find_csv [pystr ("05.1.2026.csv")] (pystr ("2026-01-05")) =
        some (pystr ("05.1.2026.csv")) := by
  refine ⟨by decide, by decide, by decide⟩

/-- Claim C6 (amended): the Flask variant answers 404 exactly when no
present CSV filename parses to the requested date; the socket-server
variant instead rebuilds one candidate filename from the date by
splitting on dashes and stripping leading zeros, and answers 404
exactly when that candidate is absent — which can happen even though a
file parsing to the date is present. -/
theorem claim_C6_amended :
    (∀ files date, app_find_csv files date = none ↔
      ∀ f ∈ files, parse_date_from_filename f ≠ some date) ∧
    (∀ files date, find_csv_for_date files date = none ↔
      ∀ fn, csv_candidate_filename date = some fn → fn ∉ files) := by
  constructor
  · intro files date
    rw [app_find_csv, List.find?_eq_none]
    simp
  · intro files date
    rcases h : csv_candidate_filename date with _ | fn
    · simp [find_csv_for_date, h]
    · by_cases hmem : fn ∈ files <;> simp [find_csv_for_date, h, hmem]

/-- Claim C6 (witness): the amended Flask characterisation applied to
an empty data directory. -/
theorem claim_C6_witness :
    app_find_csv [] (pystr ("2026-01-05")) = none ↔
      ∀ f ∈ ([] : List PyStr), parse_date_from_filename f ≠ some (pystr ("2026-01-05")) :=
  claim_C6_amended.1 [] (pystr ("2026-01-05"))

/-- Claim C7 (counterexample): a links field with leading whitespace
whose trimmed, lowercased text starts with "no links found" is not
treated as empty by the regex variant, which checks the untrimmed
text: it extracts the embedded URL. -/
theorem claim_C7_counterexample :
    pyStartswith (pystr ("no links found"))
        (pyLower (pyStrip (pystr ("  no links found https://example.com/page1")))) = true ∧
      csv_process_links (some (pystr ("  no links found https://example.com/page1"))) =
        [pystr ("https://example.com/page1")] := by
  refine ⟨by decide, by decide⟩

/-- Claim C7 (amended): both variants map an absent field to no links;
the delimiter variant trims before the check, so any field whose
trimmed lowercased text starts with "no links found" yields no links;
the regex variant checks the untrimmed lowercased field (its caller in
csv_server.py strips the cell first), so the guarantee holds for it
only on pre-stripped input. -/
theorem claim_C7_amended :
    process_links none = [] ∧
    csv_process_links none = [] ∧
    (∀ s, pyStartswith (pystr ("no links found")) (pyLower (pyStrip s)) = true →
      process_links (some s) = []) ∧
    (∀ s, pyStartswith (pystr ("no links found")) (pyLower s) = true →
      csv_process_links (some s) = []) ∧
    (∀ s, pyStartswith (pystr ("no links found")) (pyLower (pyStrip s)) = true →
      csv_process_links (some (pyStrip s)) = []) := by
  refine ⟨rfl, rfl, ?_, ?_, ?_⟩
  · intro s h
    simp only [process_links]
    by_cases h0 : pyStrip s = []
    · rw [if_pos h0]
    · rw [if_neg h0, if_pos h]
  · intro s h
    simp only [csv_process_links]
    by_cases h0 : s = []
    · rw [if_pos h0]
    · rw [if_neg h0, if_pos h]
  · intro s h
    simp only [csv_process_links]
    by_cases h0 : pyStrip s = []
    · rw [if_pos h0]
    · rw [if_neg h0, if_pos h]

/-- Claim C7 (witness): the amended guards applied to concrete "no
links found" fields for both variants. -/
theorem claim_C7_witness :
    process_links (some (pystr ("No links found"))) = [] ∧
      csv_process_links (some (pystr ("no links found"))) = [] :=
  ⟨claim_C7_amended.2.2.1 (pystr ("No links found")) (by decide),
   claim_C7_amended.2.2.2.1 (pystr ("no links found")) (by decide)⟩

/-- Claim C3 (witness): the equality of the code classifier and the
specification decision list at a concrete text. -/
theorem claim_C3_witness :
    categorize_company_news (some (pystr ("Growth continues."))) =
      spec_classifier (some (pystr ("Growth continues."))) :=
  claim_C3_amended (some (pystr ("Growth continues.")))

/-- Claim C8: in every report produced by any of the three aggregators,
the with-news and no-news buckets are sorted non-decreasingly by name
under lexicographic (code point) string comparison. -/
theorem claim_C8 :
    ∀ rows pd,
      ((app_aggregate rows).withNews.Pairwise fun a b => pyStrLe a.name b.name = true) ∧
      ((app_aggregate rows).noNews.Pairwise fun a b => pyStrLe a.name b.name = true) ∧
      ((csv_aggregate rows).withNews.Pairwise fun a b => pyStrLe a.name b.name = true) ∧
      ((csv_aggregate rows).noNews.Pairwise fun a b => pyStrLe a.name b.name = true) ∧
      ((build_aggregate pd rows).1.withNews.Pairwise fun a b => pyStrLe a.name b.name = true) ∧
      ((build_aggregate pd rows).1.noNews.Pairwise fun a b => pyStrLe a.name b.name = true) := by
  intro rows pd
  refine ⟨?_, ?_, ?_, ?_, ?_, ?_⟩ <;> exact pairwise_sortByName _

/-- Claim C8 (witness): the sorting property at an empty table. -/
theorem claim_C8_witness :
    (app_aggregate []).withNews.Pairwise fun a b => pyStrLe a.name b.name = true :=
  (claim_C8 [] []).1

/-- Claim C9 (counterexample): for a field whose lowercased text starts
with "no links found" but still contains the same URL twice, the regex
variant returns the empty list, so the duplicated URL appears zero
times in the output, not exactly once as the claim requires for every
input text. -/
theorem claim_C9_counterexample :
    csvCleanedUrls
        (pystr ("no links found, see https://example.com/abc and https://example.com/abc")) =
        [pystr ("https://example.com/abc"), pystr ("https://example.com/abc")] ∧
      csv_process_links
        (some (pystr ("no links found, see https://example.com/abc and https://example.com/abc"))) =
        [] ∧
      (csv_process_links
        (some (pystr ("no links found, see https://example.com/abc and https://example.com/abc")))).count
        (pystr ("https://example.com/abc")) = 0 := by
  refine ⟨by decide, by decide, by decide⟩

theorem count_eq_one_of_nodup_mem (l : List PyStr) (hnd : l.Nodup) (u : PyStr)
    (hu : u ∈ l) : l.count u = 1 := by
  induction l with
  | nil => cases hu
  | cons a l ih =>
    rcases List.mem_cons.mp hu with rfl | hu
    · rw [List.count_cons_self]
      have hnot : u ∉ l := (List.nodup_cons.mp hnd).1
      rw [List.count_eq_zero.mpr hnot]
    · have hne : a ≠ u := fun h => (List.nodup_cons.mp hnd).1 (h ▸ hu)
      rw [List.count_cons_of_ne (fun h => hne h.symm)]
      exact ih (List.nodup_cons.mp hnd).2 hu

/-- Claim C9 (amended): for every non-empty field not starting
(lowercased) with "no links found", the regex variant equals the
keep-first deduplication of its cleaned match list: the output is a
duplicate-free sublist of the cleaned matches — first-seen order
preserved — containing each cleaned URL exactly once. -/
theorem claim_C9_amended :
    ∀ s : PyStr, s ≠ [] →
      pyStartswith (pystr ("no links found")) (pyLower s) = false →
      csv_process_links (some s) = firstDedup (csvCleanedUrls s) ∧
        List.Sublist (csv_process_links (some s)) (csvCleanedUrls s) ∧
        (csv_process_links (some s)).Nodup ∧
        ∀ u ∈ csvCleanedUrls s, (csv_process_links (some s)).count u = 1 := by
  intro s h0 h1
  have heq : csv_process_links (some s) = firstDedup (csvCleanedUrls s) := by
    simp only [csv_process_links]
    rw [if_neg h0]
    rw [if_neg (show ¬ pyStartswith (pystr ("no links found")) (pyLower s) = true by
      simp [h1])]
    rw [csv_clean_urls_eq]
    congr 1
    simp [csvCleanedUrls]
  refine ⟨heq, ?_, ?_, ?_⟩
  · rw [heq]
    exact firstDedup_sublist _
  · rw [heq]
    exact firstDedup_nodup _
  · intro u hu
    rw [heq]
    exact count_eq_one_of_nodup_mem _ (firstDedup_nodup _) u (mem_firstDedup _ u hu)

/-- Claim C9 (witness): the amended statement at a field holding the
same URL twice. -/
theorem claim_C9_witness :
    csv_process_links (some (pystr ("https://example.com/news, https://example.com/news"))) =
        firstDedup
          (csvCleanedUrls (pystr ("https://example.com/news, https://example.com/news"))) ∧
      List.Sublist
        (csv_process_links (some (pystr ("https://example.com/news, https://example.com/news"))))
        (csvCleanedUrls (pystr ("https://example.com/news, https://example.com/news"))) ∧
      (csv_process_links
        (some (pystr ("https://example.com/news, https://example.com/news")))).Nodup ∧
      ∀ u ∈ csvCleanedUrls (pystr ("https://example.com/news, https://example.com/news")),
        (csv_process_links
          (some (pystr ("https://example.com/news, https://example.com/news")))).count u = 1 :=
  claim_C9_amended (pystr ("https://example.com/news, https://example.com/news"))
    (by decide) (by decide)

/-- Claim C10: the static build drops every row whose stripped name has
a dot among its first ten characters — no bucket record and no
company-details key has one — while the Flask app happily emits such a
row, shown here for "A.B. Industries". -/
theorem claim_C10 :
    (∀ pd rows rec,
      rec ∈ (build_aggregate pd rows).1.withNews ++ (build_aggregate pd rows).1.noNews →
      '.' ∉ rec.name.take 10) ∧
    (∀ pd rows kv, kv ∈ (build_aggregate pd rows).2 → '.' ∉ kv.1.take 10) ∧
    ((app_aggregate
        [{ company_name := pystr ("A.B. Industries"), extracted_text := none,
           extracted_links := none }]).noNews.map CompanyData.name =
      [pystr ("A.B. Industries")]) ∧
    ((build_aggregate (pystr ("2026-01-05"))
        [{ company_name := pystr ("A.B. Industries"), extracted_text := none,
           extracted_links := none }]).1.withNews = [] ∧
      (build_aggregate (pystr ("2026-01-05"))
        [{ company_name := pystr ("A.B. Industries"), extracted_text := none,
           extracted_links := none }]).1.noNews = [] ∧
      (build_aggregate (pystr ("2026-01-05"))
        [{ company_name := pystr ("A.B. Industries"), extracted_text := none,
           extracted_links := none }]).2 = []) := by
  refine ⟨?_, ?_, by decide, by decide, by decide, by decide⟩
  · intro pd rows rec h
    rcases mem_build_aggregate pd rows rec h with ⟨r, -, hskip, hname⟩
    rw [hname]
    simp only [build_skip_row, Bool.or_eq_false_iff, decide_eq_false_iff_not] at hskip
    exact hskip.2
  · intro pd rows kv h
    have hmem := mem_build_details pd rows kv h
    simp only [build_skip_row, Bool.or_eq_false_iff, decide_eq_false_iff_not] at hmem
    exact hmem.2

/-- Claim C10 (witness): the build invariant applied to a concrete
one-row table whose record survives. -/
theorem claim_C10_witness : '.' ∉ (pystr ("Acme Corp")).take 10 :=
  claim_C10.1 (pystr ("2026-01-05"))
    [{ company_name := pystr ("Acme Corp"), extracted_text := none, extracted_links := none }]
    { name := pystr ("Acme Corp"), text := [], links_raw := [], has_content := false }
    (by decide)

/-- Claim C4 (counterexample): in the static build the delimiter-split
link extractor performs no deduplication, so Beta Inc's processed
links list holds "https://example.com/news" twice, not exactly once as
the claim requires. -/
theorem claim_C4_counterexample :
    process_links (some (pystr ("https://example.com/news, https://example.com/news"))) = [pystr ("https://example.com/news"), pystr ("https://example.com/news")] ∧
      ((build_aggregate (pystr ("2026-01-05"))
          [{ company_name := pystr ("Acme Corp"), extracted_text := some (pystr ("No significant corporate developments for Acme Corp on 05.01.2026")), extracted_links := some (pystr ("")) },
       { company_name := pystr ("Beta Inc"), extracted_text := some (pystr ("Beta Inc announced a record quarterly profit beating analyst expectations significantly")), extracted_links := some (pystr ("https://example.com/news, https://example.com/news")) }]).2.map
        (fun kv => kv.2.processed_links)) = [[], [pystr ("https://example.com/news"), pystr ("https://example.com/news")]] ∧
      (process_links (some (pystr ("https://example.com/news, https://example.com/news")))).count (pystr ("https://example.com/news")) = 2 := by
  refine ⟨by decide, by decide, by decide⟩

/-- Claim C4 (amended): the end-to-end scenario holds as claimed for
the available-dates entry, both report buckets and both counts, in the
static build and in the Flask app alike — except that Beta Inc's
processed links list from the delimiter-split variant used by build.py
and app.py holds the URL exactly twice; only the socket server's
regex variant deduplicates it to one entry. -/
theorem claim_C4_amended :
    (available_dates [pystr ("05.01.2026.csv")]).map DateEntry.date =
        [pystr ("2026-01-05")] ∧
      (build_aggregate (pystr ("2026-01-05"))
          [{ company_name := pystr ("Acme Corp"), extracted_text := some (pystr ("No significant corporate developments for Acme Corp on 05.01.2026")), extracted_links := some (pystr ("")) },
       { company_name := pystr ("Beta Inc"), extracted_text := some (pystr ("Beta Inc announced a record quarterly profit beating analyst expectations significantly")), extracted_links := some (pystr ("https://example.com/news, https://example.com/news")) }]).1.withNews.map CompanyData.name = [pystr ("Beta Inc")] ∧
      (build_aggregate (pystr ("2026-01-05"))
          [{ company_name := pystr ("Acme Corp"), extracted_text := some (pystr ("No significant corporate developments for Acme Corp on 05.01.2026")), extracted_links := some (pystr ("")) },
       { company_name := pystr ("Beta Inc"), extracted_text := some (pystr ("Beta Inc announced a record quarterly profit beating analyst expectations significantly")), extracted_links := some (pystr ("https://example.com/news, https://example.com/news")) }]).1.noNews.map CompanyData.name = [pystr ("Acme Corp")] ∧
      (build_aggregate (pystr ("2026-01-05"))
          [{ company_name := pystr ("Acme Corp"), extracted_text := some (pystr ("No significant corporate developments for Acme Corp on 05.01.2026")), extracted_links := some (pystr ("")) },
       { company_name := pystr ("Beta Inc"), extracted_text := some (pystr ("Beta Inc announced a record quarterly profit beating analyst expectations significantly")), extracted_links := some (pystr ("https://example.com/news, https://example.com/news")) }]).1.news_count = 1 ∧
      (build_aggregate (pystr ("2026-01-05"))
          [{ company_name := pystr ("Acme Corp"), extracted_text := some (pystr ("No significant corporate developments for Acme Corp on 05.01.2026")), extracted_links := some (pystr ("")) },
       { company_name := pystr ("Beta Inc"), extracted_text := some (pystr ("Beta Inc announced a record quarterly profit beating analyst expectations significantly")), extracted_links := some (pystr ("https://example.com/news, https://example.com/news")) }]).1.no_news_count = 1 ∧
      ((build_aggregate (pystr ("2026-01-05"))
          [{ company_name := pystr ("Acme Corp"), extracted_text := some (pystr ("No significant corporate developments for Acme Corp on 05.01.2026")), extracted_links := some (pystr ("")) },
       { company_name := pystr ("Beta Inc"), extracted_text := some (pystr ("Beta Inc announced a record quarterly profit beating analyst expectations significantly")), extracted_links := some (pystr ("https://example.com/news, https://example.com/news")) }]).2.map
        (fun kv => (kv.1, kv.2.processed_links))) =
        [(pystr ("Acme Corp"), []), (pystr ("Beta Inc"), [pystr ("https://example.com/news"), pystr ("https://example.com/news")])] ∧
      csv_process_links (some (pystr ("https://example.com/news, https://example.com/news"))) = [pystr ("https://example.com/news")] ∧
      (app_aggregate
          [{ company_name := pystr ("Acme Corp"), extracted_text := some (pystr ("No significant corporate developments for Acme Corp on 05.01.2026")), extracted_links := some (pystr ("")) },
       { company_name := pystr ("Beta Inc"), extracted_text := some (pystr ("Beta Inc announced a record quarterly profit beating analyst expectations significantly")), extracted_links := some (pystr ("https://example.com/news, https://example.com/news")) }]).withNews.map CompanyData.name = [pystr ("Beta Inc")] ∧
      (app_aggregate
          [{ company_name := pystr ("Acme Corp"), extracted_text := some (pystr ("No significant corporate developments for Acme Corp on 05.01.2026")), extracted_links := some (pystr ("")) },
       { company_name := pystr ("Beta Inc"), extracted_text := some (pystr ("Beta Inc announced a record quarterly profit beating analyst expectations significantly")), extracted_links := some (pystr ("https://example.com/news, https://example.com/news")) }]).noNews.map CompanyData.name = [pystr ("Acme Corp")] ∧
      (app_aggregate
          [{ company_name := pystr ("Acme Corp"), extracted_text := some (pystr ("No significant corporate developments for Acme Corp on 05.01.2026")), extracted_links := some (pystr ("")) },
       { company_name := pystr ("Beta Inc"), extracted_text := some (pystr ("Beta Inc announced a record quarterly profit beating analyst expectations significantly")), extracted_links := some (pystr ("https://example.com/news, https://example.com/news")) }]).news_count = 1 ∧
      (app_aggregate
          [{ company_name := pystr ("Acme Corp"), extracted_text := some (pystr ("No significant corporate developments for Acme Corp on 05.01.2026")), extracted_links := some (pystr ("")) },
       { company_name := pystr ("Beta Inc"), extracted_text := some (pystr ("Beta Inc announced a record quarterly profit beating analyst expectations significantly")), extracted_links := some (pystr ("https://example.com/news, https://example.com/news")) }]).no_news_count = 1 := by
  refine ⟨by decide, by decide, by decide, by decide, by decide, by decide, by decide,
    by decide, by decide, by decide, by decide⟩
